import Mathlib

/-!
Verification model of the `ModelicaEnv` episode controller from
`gym_microgrid/env/modelica.py`.

Times, states and model values are embedded as rationals (`ℚ`); single-row
data frames become `Row` (parallel lists of column names and values); the
external FMU model (the ModelAdapter of the spec) is abstracted by explicit
oracles and by instrumentation fields that record the `(names, values)` pairs
pushed into it via `model.set`.  The history recorder
(`gym_microgrid/env/recorder.py`) is not part of the analysed sources, so its
small interface is modelled from the spec.
-/

set_option autoImplicit false

namespace MG

/-- A single structured row: parallel lists of column names and values.
Embeds a one-row pandas DataFrame. -/
structure Row where
  cols : List String
  vals : List ℚ
deriving DecidableEq

/-- The empty DataFrame `pd.DataFrame()` created in `reset` (line 264). -/
def emptyRow : Row := ⟨[], []⟩

/-- Column-aligned join of two single-row frames, as `DataFrame.join`
(lines 265 and 308). -/
def Row.join (a b : Row) : Row := ⟨a.cols ++ b.cols, a.vals ++ b.vals⟩

/-- A column group: a single name or a nested list of names (spec section 3:
"each group either a single name or a nested list of names"). -/
inductive Col where
  | single (name : String)
  | group (names : List String)
deriving DecidableEq

/-- Modelled from the spec: `flatten` from `gym_microgrid.common.itertools_`
(not in the analysed sources) flattens a list of column groups into the plain
list of column names. -/
def flattenCols : List Col → List String
  | [] => []
  | Col.single n :: rest => n :: flattenCols rest
  | Col.group ns :: rest => ns ++ flattenCols rest

/-- Modelled from the spec: the HistoryRecorder of
`gym_microgrid/env/recorder.py` (not in the analysed sources), per spec
section 4.3: an ordered list of column groups plus an append-only list of
rows.  Its `cols` getter exposes the flattened column names (that is how
`update_measurements` compares it with `set(flatten(cols))`), its `cols`
setter replaces the structured groups, `structured_cols()` returns the
groups, `reset()` clears the rows keeping the schema, and `append` adds one
row. -/
structure HistoryRec where
  structured : List Col
  rows : List Row
deriving DecidableEq

/-- Modelled from the spec: the recorder `cols` getter, the flattened known
column names. -/
def HistoryRec.colsFlat (h : HistoryRec) : List String := flattenCols h.structured

/-- Modelled from the spec: `structured_cols()` exposes the column groups. -/
def HistoryRec.structured_cols (h : HistoryRec) : List Col := h.structured

/-- Modelled from the spec: `history.reset()` clears all rows, preserving the
column schema (spec section 4.3). -/
def HistoryRec.resetRows (h : HistoryRec) : HistoryRec := { h with rows := [] }

/-- Modelled from the spec: `history.append(row)` appends one row (spec
section 4.3). -/
def HistoryRec.append (h : HistoryRec) (r : Row) : HistoryRec :=
  { h with rows := h.rows ++ [r] }

/-- A value of the `model_params` dictionary: a scalar or a callable of time
(docstring lines 59-63). -/
inductive ParamVal where
  | scalar (q : ℚ)
  | func (f : ℚ → ℚ)

/-- Embeds the dict comprehension of line 115:
`{var: (val if isinstance(val, Callable) else lambda t: val) for var, val in model_params.items()}`.
Python closures capture the comprehension variable `val` by reference, and
the comprehension has finished running before any of the created lambdas is
called, so the shared cell holds the value of the final iteration: every
lambda created for a scalar entry returns that final value, not the scalar it
was created for.  Callable entries are stored unchanged (they are not
closures over `val`). -/
def liftParams (ps : List (String × ParamVal)) : List (String × (ℚ → ParamVal)) :=
  match ps.getLast? with
  | none => []
  | some last =>
    ps.map fun p =>
      (p.1, match p.2 with
        | ParamVal.func f => fun t => ParamVal.scalar (f t)
        | ParamVal.scalar _ => fun _ => last.2)

/-- A Python value pushed into the model as one input: a number, or one
character when a string action is iterated (line 301 `list(action)`). -/
inductive PyObj where
  | num (q : ℚ)
  | char (c : Char)
deriving DecidableEq

/-- The action argument of `step`: a bare scalar, a list, or a string.
Scalars are not iterable (line 286 `iter(action)` raises `TypeError`),
lists and strings are. -/
inductive PyAct where
  | scalar (q : ℚ)
  | list (l : List ℚ)
  | str (s : String)

/-- Non-fatal warnings logged by `step` (lines 278 and 289). -/
inductive Warn where
  | stepAfterDone
  | scalarAction
deriving DecidableEq

/-- The exceptions the embedded fragment can raise: the `ValueError` of the
action-length check (lines 292-297, carrying the expected and actual
lengths), the `ValueError` of the partial column overlap (lines 236-238,
carrying the offending groups and the known columns), and the
`AttributeError` from an attribute lookup that does not resolve. -/
inductive PyErr where
  | valueErrorActionLength (expected actual : ℕ)
  | valueErrorSchema (cols : List Col) (histCols : List String)
  | attributeError (name : String)
deriving DecidableEq

/-- The value returned by `step`: the done branch (line 282) returns the
3-tuple `(self.__state, None, self.is_done)`, the normal exit (line 321)
returns the 4-tuple `(obs, self.reward(obs), self.is_done, {})` whose last
component is the constant empty info dict. -/
inductive StepReturn where
  | triple (obs : Option Row) (reward : Option ℚ) (done : Bool)
  | quad (obs : Row) (reward : ℚ) (done : Bool)
deriving DecidableEq

/-- The state of a `ModelicaEnv` instance, restricted to the fields the
analysed fragment reads or writes.  `pushed_inputs` and `pushed_params`
instrument the ModelAdapter: they record the `(name, value)` pairs of the
latest `model.set` calls of lines 301 and 304. -/
structure EnvState where
  time_start : ℚ
  time_step_size : ℚ
  max_episode_steps : Option ℕ
  model_input_names : List String
  model_parameters : List (String × (ℚ → ParamVal))
  sim_time_interval : ℚ × ℚ
  stateRow : Option Row
  measurements : Row
  history : HistoryRec
  pushed_inputs : List (String × PyObj)
  pushed_params : List (String × ParamVal)

/-- The episode end time of line 112:
`np.inf if max_episode_steps is None else time_start + max_episode_steps * time_step_size`;
`none` stands for `np.inf`. -/
def timeEndQ (s : EnvState) : Option ℚ :=
  s.max_episode_steps.map fun n => s.time_start + (n : ℚ) * s.time_step_size

/-- The `is_done` property (lines 214-222):
`abs(self.sim_time_interval[1]) > self.time_end`.  A finite value never
exceeds `np.inf`, so the unbounded case is `false`. -/
def isDone (s : EnvState) : Bool :=
  match timeEndQ s with
  | none => false
  | some te => decide (|s.sim_time_interval.2| > te)

/-- The coercion of lines 284-289: a bare scalar fails the `iter` check, is
wrapped into a one-element list and a warning is logged; lists and strings
are iterable and pass through, `list(action)` on a string yielding its
characters.  The returned list is `list(action)` after coercion; its length
is `len(action)`. -/
def coerceAction : PyAct → List PyObj × List Warn
  | PyAct.scalar q => ([PyObj.num q], [Warn.scalarAction])
  | PyAct.list l => (l.map PyObj.num, [])
  | PyAct.str t => (t.toList.map PyObj.char, [])

/-- The `step` method (lines 269-321).  `sim` abstracts `self._simulate()`
as a function of the current `sim_time_interval` (the solver run plus the
`get_real` read of the outputs), and `rf` is `self.reward`.  Returns the new
state, the returned tuple and the warnings logged, or the raised error. -/
def stepGo (sim : ℚ × ℚ → Row) (rf : Row → ℚ) (s : EnvState) (action : PyAct) :
    Except PyErr (EnvState × StepReturn × List Warn) :=
  if isDone s then
    Except.ok (s, StepReturn.triple s.stateRow none (isDone s), [Warn.stepAfterDone])
  else
    let cw := coerceAction action
    if cw.1.length ≠ s.model_input_names.length then
      Except.error (PyErr.valueErrorActionLength s.model_input_names.length cw.1.length)
    else
      let s1 := { s with pushed_inputs := s.model_input_names.zip cw.1 }
      -- line 302: `if self.model_parameters:` — when the dict is falsy no
      -- `model.set` call happens and the parameter instrumentation is
      -- unchanged, otherwise each function is evaluated at
      -- `self.sim_time_interval[0]` (line 304)
      let s2 := { s1 with pushed_params :=
          (if s1.model_parameters.isEmpty then s1.pushed_params
           else s1.model_parameters.map
             (fun p : String × (ℚ → ParamVal) => (p.1, p.2 s1.sim_time_interval.1))) }
      let obs := sim s2.sim_time_interval
      let merged := obs.join s2.measurements
      let s3 := { s2 with stateRow := some obs, history := s2.history.append merged }
      -- line 315 re-reads `self.is_done`; it depends only on the time fields,
      -- which none of the mutations since the entry check touched, so it is
      -- evaluated against the entry state
      let s4 :=
        if isDone s then s3
        else { s3 with sim_time_interval :=
                 (s3.sim_time_interval.1 + s3.time_step_size,
                  s3.sim_time_interval.2 + s3.time_step_size) }
      Except.ok (s4, StepReturn.quad merged (rf merged) (isDone s4), cw.2)

/-- The `reset` method (lines 244-267): sets the time window, clears the
history rows, runs one integration, clears the pending measurements, appends
the joined row and returns the observation.  `sim` abstracts
`self._simulate()` as in `stepGo`. -/
def resetEnv (sim : ℚ × ℚ → Row) (s : EnvState) : EnvState × Row :=
  let interval := (s.time_start, s.time_start + s.time_step_size)
  let obs := sim interval
  let h := (s.history.resetRows).append (obs.join emptyRow)
  ({ s with sim_time_interval := interval, history := h,
            stateRow := some obs, measurements := emptyRow },
   obs)

/-- A pandas DataFrame as far as the analysed fragment observes it: column
names and one row of values.  Attribute access goes through `attrCols`
below. -/
structure DataFrame where
  columns : List String
  vals : List ℚ
deriving DecidableEq

/-- Python attribute lookup on a DataFrame restricted to list-of-names
results: only the real attribute `columns` resolves; any other name (such as
the misspelling `colums` of line 233) raises `AttributeError`, modelled as
`none`. -/
def DataFrame.attrCols (d : DataFrame) (name : String) : Option (List String) :=
  if name = "columns" then some d.columns else none

/-- The row of values carried by a DataFrame. -/
def DataFrame.toRow (d : DataFrame) : Row := ⟨d.columns, d.vals⟩

/-- The argument of `update_measurements` (line 224): a lone DataFrame or a
list of (column-group, row) pairs. -/
inductive MeasArg where
  | df (d : DataFrame)
  | pairs (ms : List (List Col × Row))

/-- The number of missing columns of line 235:
`len(set(flatten(cols)) - set(self.history.cols))`, the size of the set
difference between the supplied flattened names and the known flattened
names. -/
def missColCount (fc known : List String) : ℕ :=
  (fc.toFinset \ known.toFinset).card

/-- The loop of lines 234-240 over the (cols, df) pairs: a partial overlap
raises (lines 236-238) with the recorder left as mutated by the earlier
iterations; wholly new columns extend the schema
(`self.history.cols = self.history.structured_cols() + cols`, line 240);
wholly known columns leave it unchanged.  Returns the recorder after the
mutations performed, and the raised error if any. -/
def updateLoop (h : HistoryRec) : List (List Col × Row) → HistoryRec × Option PyErr
  | [] => (h, none)
  | (cols, _) :: rest =>
    if 0 < missColCount (flattenCols cols) h.colsFlat
        ∧ missColCount (flattenCols cols) h.colsFlat < (flattenCols cols).length then
      (h, some (PyErr.valueErrorSchema cols h.colsFlat))
    else
      updateLoop
        (if missColCount (flattenCols cols) h.colsFlat ≠ 0 then
          { h with structured := h.structured ++ cols }
         else h) rest

/-- The column-wise concatenation of line 242:
`pd.concat(list(map(lambda df: df[1].reset_index(drop=True), measurements)), axis=1)`
over single-row frames. -/
def concatRows (rs : List Row) : Row :=
  ⟨(rs.map Row.cols).flatten, (rs.map Row.vals).flatten⟩

/-- The list-argument body of `update_measurements` (lines 234-242): run the
schema loop; on success additionally store the concatenated measurements.
The first component is the mutated object state (the schema mutations of the
loop survive even when the error is raised), the second the raised error if
any. -/
def update_measurementsList (s : EnvState) (ms : List (List Col × Row)) :
    EnvState × Option PyErr :=
  match updateLoop s.history ms with
  | (h, some e) => ({ s with history := h }, some e)
  | (h, none) => ({ s with history := h, measurements := concatRows (ms.map Prod.snd) }, none)

/-- The `update_measurements` method (lines 224-242).  The DataFrame branch
of lines 232-233 evaluates `measurements.colums` — a misspelling of
`columns` — so the attribute lookup fails before any pair is formed. -/
def update_measurements (s : EnvState) (m : MeasArg) : EnvState × Option PyErr :=
  match m with
  | MeasArg.df d =>
    match d.attrCols "colums" with
    | none => (s, some (PyErr.attributeError "colums"))
    | some cs => update_measurementsList s [(cs.map Col.single, d.toRow)]
  | MeasArg.pairs ms => update_measurementsList s ms

/-- The m-by-m identity matrix `np.identity(m)` of line 181, as a list of
rows. -/
def identityM (m : ℕ) : List (List ℚ) :=
  (List.range m).map fun i => (List.range m).map fun j => if i = j then 1 else 0

/-- The `_calc_jac` method (lines 170-183).  `m` is the length of the
derivative reference list and `dd` abstracts
`self.model.get_directional_derivative(*refs, col)` as a function of the
direction column.  Line 182 calls
`np.apply_along_axis(lambda col: ..., 0, jacobian)`, which builds a fresh
array out of the probe results (one per column of the identity) and does not
assign it anywhere: the probed columns are discarded and the identity of
line 181 is returned. -/
def calc_jac (m : ℕ) (dd : List ℚ → List ℚ) : List (List ℚ) :=
  let jacobian := identityM m
  let _probed := jacobian.transpose.map dd
  jacobian

/-! Concrete fixtures used by the claim instances below.  The base scenario is
the configuration of the spec's worked example: `time_start = 0`,
`time_step_size = 1/10`, `max_episode_steps = 5` (so `time_end = 1/2`), one
declared input name and one output column. -/

/-- A fixed observation row produced by the simulate oracle. -/
def r0 : Row := ⟨["x"], [3]⟩

/-- A constant simulate oracle. -/
def simC : ℚ × ℚ → Row := fun _ => r0

/-- A constant reward function. -/
def rfC : Row → ℚ := fun _ => 0

/-- The base controller state right after `reset()` in the worked
configuration. -/
def baseS : EnvState :=
  { time_start := 0, time_step_size := 1/10, max_episode_steps := some 5,
    model_input_names := ["u"], model_parameters := [],
    sim_time_interval := (0, 1/10), stateRow := some r0,
    measurements := emptyRow,
    history := ⟨[Col.single "x"], []⟩,
    pushed_inputs := [], pushed_params := [] }

/-- The state whose window end equals `time_end` exactly (after the 4th
advance: window `[2/5, 1/2]`). -/
def winAtEnd : EnvState := { baseS with sim_time_interval := (2/5, 1/2) }

/-- The state whose window end has passed `time_end` (after the 5th advance:
window `[1/2, 3/5]`). -/
def winPastEnd : EnvState := { baseS with sim_time_interval := (1/2, 3/5) }

/-- The base state with the `model_params` dict of two distinct scalars
`a = 1` and `b = 2`, lifted at construction as on line 115. -/
def sParams : EnvState :=
  { baseS with model_parameters :=
      liftParams [("a", ParamVal.scalar 1), ("b", ParamVal.scalar 2)] }

/-- The base state with two declared input names. -/
def twoInputS : EnvState := { baseS with model_input_names := ["a", "b"] }

/-- The base state with a recorder knowing the single column group `a`. -/
def sHistA : EnvState := { baseS with history := ⟨[Col.single "a"], []⟩ }

/-- A measurement row for the new column `b`. -/
def rowB : Row := ⟨["b"], [7]⟩

/-- A measurement row whose columns `a`, `c` overlap the known column `a`
only partially. -/
def rowAC : Row := ⟨["a", "c"], [8, 9]⟩

/-- A list-valued `update_measurements` call whose partially-overlapping
group comes after a wholly-new group. -/
def msPartial : List (List Col × Row) :=
  [([Col.single "b"], rowB), ([Col.single "a", Col.single "c"], rowAC)]

/-- The state `baseS` after one successful `step([5])`. -/
def baseSStepped : EnvState :=
  { baseS with pushed_inputs := [("u", PyObj.num 5)], stateRow := some r0,
               history := ⟨[Col.single "x"], [r0.join emptyRow]⟩,
               sim_time_interval := (1/10, 1/5) }

/-! Helper lemmas: the `is_done` value of each concrete fixture.  Rational
arithmetic does not reduce definitionally, so these are established once by
`norm_num` and used to drive the evaluations below. -/

theorem isDone_baseS : isDone baseS = false := by
  simp [isDone, timeEndQ, baseS, abs_of_nonneg]

theorem isDone_winAtEnd : isDone winAtEnd = false := by
  simp [isDone, timeEndQ, winAtEnd, baseS, abs_of_nonneg]
  norm_num

theorem isDone_winPastEnd : isDone winPastEnd = true := by
  simp [isDone, timeEndQ, winPastEnd, baseS]
  rw [show |(3:ℚ)/5| = 3/5 from abs_of_nonneg (by norm_num)]
  norm_num

theorem isDone_sParams : isDone sParams = false := by
  simp [isDone, timeEndQ, sParams, baseS, abs_of_nonneg]

theorem isDone_twoInputS : isDone twoInputS = false := by
  simp [isDone, timeEndQ, twoInputS, baseS, abs_of_nonneg]

/-- C1: with the `model_params` mapping `a = 1, b = 2` of two distinct
scalars, a `step` call pushes `(a, 2), (b, 2)` into the ModelAdapter — every
scalar parameter is pushed with the value of the LAST scalar of the mapping,
not its own, because the lambdas of line 115 all close over the shared
comprehension variable.  The claim, which says every name is pushed with its
own original scalar, fails on this input. -/
theorem c1_scalar_params_all_push_last_value :
    (stepGo simC rfC sParams (PyAct.list [1])).toOption.map
        (fun r => r.1.pushed_params)
      = some [("a", ParamVal.scalar 2), ("b", ParamVal.scalar 2)] := by
  simp only [stepGo, isDone_sParams]
  rfl

/-- C2: `_calc_jac` returns the identity matrix whatever the
directional-derivative primitive computes (the probe results of line 182 are
discarded), so for the 1-dimensional linear model `dx/dt = 2·x` (primitive
`v ↦ 2·v`, Jacobian `A = [[2]]`) the assembled Jacobian is `[[1]]`, not `A`.
The claim that the assembled callable returns `A` fails. -/
theorem c2_calc_jac_is_identity :
    (∀ (m : ℕ) (dd : List ℚ → List ℚ), calc_jac m dd = identityM m)
    ∧ calc_jac 1 (fun v => v.map (fun q => 2 * q)) = [[1]] :=
  ⟨fun _ _ => rfl, rfl⟩

/-- C3: in a terminated state (window `[1/2, 3/5]`, `time_end = 1/2`),
`step(action)` logs the warning and returns the 3-tuple
`(last observation, None, True)` — not the 4-tuple with a trailing info dict
that the claim (and the method's own docstring) promises — leaving the state,
and with it the time window and the history, unchanged. -/
theorem c3_step_after_done_returns_bare_triple :
    stepGo simC rfC winPastEnd (PyAct.list [1])
      = Except.ok (winPastEnd, StepReturn.triple (some r0) none true,
          [Warn.stepAfterDone]) := by
  simp only [stepGo, isDone_winPastEnd]
  rfl

/-- C5: passing a lone DataFrame to `update_measurements` always raises
`AttributeError`: line 233 evaluates `measurements.colums`, a misspelling of
`columns`, before any (column-group, row) pair is formed.  No DataFrame is
ever processed under the schema rules, contrary to the claim. -/
theorem c5_lone_dataframe_raises_attribute_error (s : EnvState) (d : DataFrame) :
    update_measurements s (MeasArg.df d)
      = (s, some (PyErr.attributeError "colums")) := rfl

/-- C7: for every configuration and simulate oracle, `reset()` sets the time
window to exactly `[time_start, time_start + time_step_size]`, leaves the
history holding exactly the one row obtained by joining the initial
observation with the cleared empty measurements (schema preserved), clears
the pending measurements, and returns the observation produced by the one
integration over that window. -/
theorem c7_reset_establishes_initial_state (sim : ℚ × ℚ → Row) (s : EnvState) :
    (resetEnv sim s).1.sim_time_interval = (s.time_start, s.time_start + s.time_step_size)
    ∧ (resetEnv sim s).1.history.rows
        = [(sim (s.time_start, s.time_start + s.time_step_size)).join emptyRow]
    ∧ (resetEnv sim s).1.history.structured = s.history.structured
    ∧ (resetEnv sim s).1.measurements = emptyRow
    ∧ (resetEnv sim s).2 = sim (s.time_start, s.time_start + s.time_step_size)
    ∧ (resetEnv sim s).1.stateRow = some ((resetEnv sim s).2) :=
  ⟨rfl, rfl, rfl, rfl, rfl, rfl⟩

/-- C6: for every controller state whose episode end is finite, `is_done`
holds if and only if the absolute value of the window end strictly exceeds
`time_end`; a window whose end equals `time_end` exactly is therefore not
done.  The worked instance (`time_start = 0`, `time_step_size = 1/10`,
`max_episode_steps = 5`, hence `time_end = 1/2`; ends `1/2` versus `3/5`) is
exercised in the witness. -/
theorem c6_is_done_iff (s : EnvState) (te : ℚ) (hte : timeEndQ s = some te) :
    isDone s = true ↔ |s.sim_time_interval.2| > te := by
  simp [isDone, hte]

/-- Witness for C6: in the worked configuration `time_end = 1/2`; a window
ending at exactly `1/2` is not done and a window ending at `3/5` is done. -/
theorem c6_is_done_iff_witness :
    timeEndQ winPastEnd = some (1/2) ∧ isDone winPastEnd = true
    ∧ timeEndQ winAtEnd = some (1/2) ∧ isDone winAtEnd = false := by
  have h1 : timeEndQ winPastEnd = some (1/2) := by
    simp [timeEndQ, winPastEnd, baseS]
    norm_num
  have h2 : timeEndQ winAtEnd = some (1/2) := by
    simp [timeEndQ, winAtEnd, baseS]
    norm_num
  refine ⟨h1, ?_, h2, ?_⟩
  · refine (c6_is_done_iff winPastEnd (1/2) h1).mpr ?_
    show |(3:ℚ)/5| > 1/2
    rw [show |(3:ℚ)/5| = 3/5 from abs_of_nonneg (by norm_num)]
    norm_num
  · have h3 := c6_is_done_iff winAtEnd (1/2) h2
    have h4 : ¬ (isDone winAtEnd = true) := by
      intro hb
      have h5 := h3.mp hb
      rw [show winAtEnd.sim_time_interval.2 = 1/2 from rfl] at h5
      rw [show |(1:ℚ)/2| = 1/2 from abs_of_nonneg (by norm_num)] at h5
      exact absurd h5 (by norm_num)
    simpa using h4

/-- C8: in a non-terminal state, a list action whose length differs from the
declared input count makes `step` raise the `ValueError` of lines 292-297
carrying both the expected and the actual length; an action of the declared
length never raises; and — the raise happening before any mutation — the same
state accepts any subsequent corrected call. -/
theorem c8_invalid_action_length (sim : ℚ × ℚ → Row) (rf : Row → ℚ)
    (s : EnvState) (l : List ℚ) (hnd : isDone s = false) :
    (l.length ≠ s.model_input_names.length →
        stepGo sim rf s (PyAct.list l)
          = Except.error
              (PyErr.valueErrorActionLength s.model_input_names.length l.length))
    ∧ (l.length = s.model_input_names.length →
        ∀ e, stepGo sim rf s (PyAct.list l) ≠ Except.error e)
    ∧ (∀ l2 : List ℚ, l2.length = s.model_input_names.length →
        ∃ r, stepGo sim rf s (PyAct.list l2) = Except.ok r) := by
  refine ⟨?_, ?_, ?_⟩
  · intro hne
    simp [stepGo, hnd, coerceAction, hne]
  · intro heq e
    simp [stepGo, hnd, coerceAction, heq]
  · intro l2 h2
    simp [stepGo, hnd, coerceAction, h2]

/-- Witness for C8: in the base state with one declared input, the action
`[1, 2]` raises the length error naming expected 1 and actual 2. -/
theorem c8_invalid_action_length_witness :
    isDone baseS = false
    ∧ stepGo simC rfC baseS (PyAct.list [1, 2])
        = Except.error (PyErr.valueErrorActionLength 1 2) := by
  refine ⟨isDone_baseS, ?_⟩
  exact (c8_invalid_action_length simC rfC baseS [1, 2] isDone_baseS).1 (by decide)

/-- C10: a string action passes the iterability check of line 286 untouched
(no wrapping, no scalar warning); its length is its character count, so it is
accepted exactly when that count equals the declared input count, and then
`list(action)` pushes one character per declared input name. -/
theorem c10_string_action_semantics (sim : ℚ × ℚ → Row) (rf : Row → ℚ)
    (s : EnvState) (t : String) (hnd : isDone s = false) :
    coerceAction (PyAct.str t) = (t.toList.map PyObj.char, [])
    ∧ (t.length ≠ s.model_input_names.length →
        stepGo sim rf s (PyAct.str t)
          = Except.error (PyErr.valueErrorActionLength s.model_input_names.length
              t.length))
    ∧ (t.length = s.model_input_names.length →
        (stepGo sim rf s (PyAct.str t)).toOption.map
            (fun r => (r.1.pushed_inputs, r.2.2))
          = some (s.model_input_names.zip (t.toList.map PyObj.char), [])) := by
  refine ⟨rfl, ?_, ?_⟩
  · intro hne
    simp [stepGo, hnd, coerceAction, hne]
  · intro heq
    simp [stepGo, hnd, coerceAction, heq]
    exact ⟨_, ⟨_, rfl⟩, rfl⟩

/-- Witness for C10: with two declared inputs `a`, `b`, the 2-character
string action pushes one character per input and logs no warning. -/
theorem c10_string_action_semantics_witness :
    isDone twoInputS = false
    ∧ (stepGo simC rfC twoInputS (PyAct.str "xy")).toOption.map
        (fun r => (r.1.pushed_inputs, r.2.2))
      = some ([("a", PyObj.char 'x'), ("b", PyObj.char 'y')], []) := by
  refine ⟨isDone_twoInputS, ?_⟩
  have h := (c10_string_action_semantics simC rfC twoInputS "xy"
    isDone_twoInputS).2.2 (by decide)
  exact h.trans (by decide)

/-- C9: `reset()` establishes the window-width invariant
`t_end - t_start = time_step_size`; every successful non-terminal `step`
advances both endpoints by exactly `time_step_size` (preserving the width,
and monotonically non-decreasing when the step size is positive); a terminal
`step` leaves the window unchanged. -/
theorem c9_time_window_invariant (sim : ℚ × ℚ → Row) (rf : Row → ℚ)
    (s : EnvState) :
    ((resetEnv sim s).1.sim_time_interval.2 - (resetEnv sim s).1.sim_time_interval.1
        = s.time_step_size)
    ∧ (∀ a s2 ret ws, isDone s = false →
        stepGo sim rf s a = Except.ok (s2, ret, ws) →
        s2.sim_time_interval
            = (s.sim_time_interval.1 + s.time_step_size,
               s.sim_time_interval.2 + s.time_step_size)
          ∧ s2.time_step_size = s.time_step_size
          ∧ s2.sim_time_interval.2 - s2.sim_time_interval.1
              = s.sim_time_interval.2 - s.sim_time_interval.1
          ∧ (0 < s.time_step_size →
              s.sim_time_interval.1 ≤ s2.sim_time_interval.1
              ∧ s.sim_time_interval.2 ≤ s2.sim_time_interval.2))
    ∧ (∀ a s2 ret ws, isDone s = true →
        stepGo sim rf s a = Except.ok (s2, ret, ws) →
        s2.sim_time_interval = s.sim_time_interval) := by
  refine ⟨?_, ?_, ?_⟩
  · show s.time_start + s.time_step_size - s.time_start = s.time_step_size
    ring
  · intro a s2 ret ws hnd hstep
    simp only [stepGo, hnd] at hstep
    simp at hstep
    split at hstep
    · simp only [Except.ok.injEq, Prod.mk.injEq] at hstep
      obtain ⟨h1, -, -⟩ := hstep
      subst h1
      refine ⟨rfl, rfl, ?_, ?_⟩
      · show s.sim_time_interval.2 + s.time_step_size
            - (s.sim_time_interval.1 + s.time_step_size)
          = s.sim_time_interval.2 - s.sim_time_interval.1
        ring
      · intro hpos
        constructor
        · show s.sim_time_interval.1 ≤ s.sim_time_interval.1 + s.time_step_size
          linarith
        · show s.sim_time_interval.2 ≤ s.sim_time_interval.2 + s.time_step_size
          linarith
    · exact absurd hstep (by simp)
  · intro a s2 ret ws hd hstep
    simp only [stepGo, hd] at hstep
    simp at hstep
    obtain ⟨h1, -, -⟩ := hstep
    subst h1
    rfl

/-- Witness for C9: one successful `step([5])` from the base state advances
the window from `[0, 1/10]` to `[1/10, 1/5]`, both endpoints moving by
exactly the step size. -/
theorem c9_time_window_invariant_witness :
    isDone baseS = false
    ∧ stepGo simC rfC baseS (PyAct.list [5])
        = Except.ok (baseSStepped, StepReturn.quad (r0.join emptyRow) 0 false, [])
    ∧ baseSStepped.sim_time_interval
        = (baseS.sim_time_interval.1 + baseS.time_step_size,
           baseS.sim_time_interval.2 + baseS.time_step_size) := by
  have hstep : stepGo simC rfC baseS (PyAct.list [5])
      = Except.ok (baseSStepped, StepReturn.quad (r0.join emptyRow) 0 false, []) := by
    norm_num [stepGo, isDone_baseS, coerceAction, baseS, baseSStepped, r0, emptyRow,
      Row.join, HistoryRec.append, simC, rfC, isDone, timeEndQ, EnvState.mk.injEq,
      Prod.mk.injEq, abs_of_nonneg]
  exact ⟨isDone_baseS, hstep,
    ((c9_time_window_invariant simC rfC baseS).2.1 (PyAct.list [5]) baseSStepped
      (StepReturn.quad (r0.join emptyRow) 0 false) [] isDone_baseS hstep).1⟩

/-- C4 counterexample, two divergences.  First, the list-valued call
registering the wholly-new group `[b]` and then the partially-overlapping
group `[a, c]` (given the known column `a`) raises the partial-overlap
`ValueError`, yet the schema has already been mutated by the first group:
afterwards it is `[a, b]`, not the original `[a]` — "no mutation occurs"
fails when the offending group comes after other groups in the same call.
Second, the wholly-disjoint group `[b, b]` with a repeated name does not grow
the schema at all: `set(flatten(cols))` collapses the duplicate, so
`miss_col_count = 1` falls strictly between `0` and `len(flatten(cols)) = 2`
and line 237 raises — "the schema grows by exactly that new group" fails for
duplicated groups. -/
theorem c4_overlap_error_not_atomic :
    ((update_measurements sHistA (MeasArg.pairs msPartial)).2
        = some (PyErr.valueErrorSchema [Col.single "a", Col.single "c"] ["a", "b"])
    ∧ (update_measurements sHistA (MeasArg.pairs msPartial)).1.history.structured
        = [Col.single "a", Col.single "b"]
    ∧ ¬ (update_measurements sHistA (MeasArg.pairs msPartial)).1.history.structured
        = sHistA.history.structured)
    ∧ ((∀ c ∈ flattenCols [Col.single "b", Col.single "b"],
          c ∉ sHistA.history.colsFlat)
    ∧ (update_measurements sHistA
          (MeasArg.pairs [([Col.single "b", Col.single "b"], rowB)])).2
        = some (PyErr.valueErrorSchema [Col.single "b", Col.single "b"] ["a"])
    ∧ (update_measurements sHistA
          (MeasArg.pairs [([Col.single "b", Col.single "b"], rowB)])).1.history.structured
        = sHistA.history.structured) := by decide

/-- C4 (amended): `update_measurements` on a single group behaves as follows.
A duplicate-free group wholly disjoint from the known columns grows the
schema by exactly that group (rows untouched); a wholly-disjoint group with a
repeated name instead raises and leaves the state unchanged (the set
difference of line 235 collapses duplicates, so its size falls strictly
between zero and the flattened length); a group of wholly known columns
leaves the schema unchanged; a partial overlap raises and, as the first group
processed, leaves the state wholly unchanged.  Whenever a call raises, the
stored measurements are left unchanged — but schema registrations made for
groups earlier in the same call persist (see the counterexample). -/
theorem c4_schema_rules (s : EnvState) (cols : List Col) (df : Row) :
    ((flattenCols cols).Nodup →
        (∀ c ∈ flattenCols cols, c ∉ s.history.colsFlat) → flattenCols cols ≠ [] →
        (update_measurements s (MeasArg.pairs [(cols, df)])).2 = none
        ∧ (update_measurements s (MeasArg.pairs [(cols, df)])).1.history.structured
            = s.history.structured ++ cols
        ∧ (update_measurements s (MeasArg.pairs [(cols, df)])).1.history.rows
            = s.history.rows)
    ∧ (¬ (flattenCols cols).Nodup →
        (∀ c ∈ flattenCols cols, c ∉ s.history.colsFlat) →
        (update_measurements s (MeasArg.pairs [(cols, df)])).1 = s
        ∧ (update_measurements s (MeasArg.pairs [(cols, df)])).2
            = some (PyErr.valueErrorSchema cols s.history.colsFlat))
    ∧ ((∀ c ∈ flattenCols cols, c ∈ s.history.colsFlat) →
        (update_measurements s (MeasArg.pairs [(cols, df)])).2 = none
        ∧ (update_measurements s (MeasArg.pairs [(cols, df)])).1.history = s.history)
    ∧ ((∃ c ∈ flattenCols cols, c ∈ s.history.colsFlat) →
       (∃ c ∈ flattenCols cols, c ∉ s.history.colsFlat) →
        (update_measurements s (MeasArg.pairs [(cols, df)])).1 = s
        ∧ (update_measurements s (MeasArg.pairs [(cols, df)])).2
            = some (PyErr.valueErrorSchema cols s.history.colsFlat))
    ∧ (∀ ms, (update_measurements s (MeasArg.pairs ms)).2.isSome = true →
        (update_measurements s (MeasArg.pairs ms)).1.measurements
          = s.measurements) := by
  refine ⟨?_, ?_, ?_, ?_, ?_⟩
  · intro hnodup hdisj hne
    have hsd : (flattenCols cols).toFinset \ s.history.colsFlat.toFinset
        = (flattenCols cols).toFinset := by
      ext x
      simp only [Finset.mem_sdiff, List.mem_toFinset]
      exact ⟨fun hx => hx.1, fun hx => ⟨hx, hdisj x hx⟩⟩
    have hmc : missColCount (flattenCols cols) s.history.colsFlat
        = (flattenCols cols).length := by
      rw [missColCount, hsd, List.toFinset_card_of_nodup hnodup]
    have hcond : ¬(0 < missColCount (flattenCols cols) s.history.colsFlat
        ∧ missColCount (flattenCols cols) s.history.colsFlat
            < (flattenCols cols).length) := by
      rw [hmc]
      exact fun h => lt_irrefl _ h.2
    have hne0 : missColCount (flattenCols cols) s.history.colsFlat ≠ 0 := by
      rw [hmc]
      exact fun h => hne (List.length_eq_zero.mp h)
    simp only [update_measurements, update_measurementsList, updateLoop,
      if_neg hcond, if_pos hne0]
    exact ⟨trivial, trivial, trivial⟩
  · intro hdup hdisj
    have hsd : (flattenCols cols).toFinset \ s.history.colsFlat.toFinset
        = (flattenCols cols).toFinset := by
      ext x
      simp only [Finset.mem_sdiff, List.mem_toFinset]
      exact ⟨fun hx => hx.1, fun hx => ⟨hx, hdisj x hx⟩⟩
    have h0 : 0 < missColCount (flattenCols cols) s.history.colsFlat := by
      rw [missColCount, hsd]
      refine Finset.card_pos.mpr ?_
      cases hfc : flattenCols cols with
      | nil =>
        rw [hfc] at hdup
        exact absurd List.nodup_nil hdup
      | cons c rest =>
        exact ⟨c, by simp⟩
    have hlt : missColCount (flattenCols cols) s.history.colsFlat
        < (flattenCols cols).length := by
      rw [missColCount, hsd, List.card_toFinset]
      rcases lt_or_eq_of_le (List.dedup_sublist (flattenCols cols)).length_le
        with h | h
      · exact h
      · exact absurd (List.dedup_eq_self.mp
          ((List.dedup_sublist (flattenCols cols)).eq_of_length h)) hdup
    simp only [update_measurements, update_measurementsList, updateLoop,
      if_pos (And.intro h0 hlt)]
    exact ⟨trivial, trivial⟩
  · intro hall
    have hsd : (flattenCols cols).toFinset \ s.history.colsFlat.toFinset = ∅ := by
      ext x
      simp only [Finset.mem_sdiff, List.mem_toFinset, Finset.not_mem_empty,
        iff_false, not_and, not_not]
      exact fun hx => hall x hx
    have hmc : missColCount (flattenCols cols) s.history.colsFlat = 0 := by
      rw [missColCount, hsd]
      exact Finset.card_empty
    have hcond : ¬(0 < missColCount (flattenCols cols) s.history.colsFlat
        ∧ missColCount (flattenCols cols) s.history.colsFlat
            < (flattenCols cols).length) := by
      rw [hmc]
      rintro ⟨h0, -⟩
      exact lt_irrefl 0 h0
    have hne0 : ¬(missColCount (flattenCols cols) s.history.colsFlat ≠ 0) := by
      rw [hmc]
      exact fun h => h rfl
    simp only [update_measurements, update_measurementsList, updateLoop,
      if_neg hcond, if_neg hne0]
    exact ⟨trivial, trivial⟩
  · rintro ⟨c1, hc1, hk1⟩ ⟨c2, hc2, hnk2⟩
    have h0 : 0 < missColCount (flattenCols cols) s.history.colsFlat := by
      rw [missColCount]
      refine Finset.card_pos.mpr ⟨c2, ?_⟩
      simp only [Finset.mem_sdiff, List.mem_toFinset]
      exact ⟨hc2, hnk2⟩
    have hlt : missColCount (flattenCols cols) s.history.colsFlat
        < (flattenCols cols).length := by
      rw [missColCount]
      have hss : (flattenCols cols).toFinset \ s.history.colsFlat.toFinset
          ⊂ (flattenCols cols).toFinset := by
        refine ⟨Finset.sdiff_subset, fun hsub => ?_⟩
        have hmem := hsub (List.mem_toFinset.mpr hc1)
        simp only [Finset.mem_sdiff, List.mem_toFinset] at hmem
        exact hmem.2 hk1
      exact lt_of_lt_of_le (Finset.card_lt_card hss) (List.toFinset_card_le _)
    simp only [update_measurements, update_measurementsList, updateLoop,
      if_pos (And.intro h0 hlt)]
    exact ⟨trivial, trivial⟩
  · intro ms hsome
    rcases hu : updateLoop s.history ms with ⟨h2, o⟩
    cases o with
    | none =>
      simp only [update_measurements, update_measurementsList, hu,
        Option.isSome_none] at hsome
      exact Bool.noConfusion hsome
    | some e =>
      simp only [update_measurements, update_measurementsList, hu]

/-- Witness for C4 (amended): registering the wholly-new group `[d]` against
the known column `a` succeeds and grows the schema by exactly that group. -/
theorem c4_schema_rules_witness :
    (update_measurements sHistA (MeasArg.pairs [([Col.single "d"], rowB)])).2 = none
    ∧ (update_measurements sHistA
          (MeasArg.pairs [([Col.single "d"], rowB)])).1.history.structured
        = sHistA.history.structured ++ [Col.single "d"] := by
  have h := (c4_schema_rules sHistA [Col.single "d"] rowB).1
    (by decide) (by decide) (by decide)
  exact ⟨h.1, h.2.1⟩

end MG
